import Mathlib

/-!
Shallow embedding of the client-side aggregation pipeline of the
amana-marketing dashboard, together with theorems settling the spec's
claims about it.

Modelling conventions:
* JavaScript numbers are modelled as exact rationals (`ℚ`).  Where a
  division can produce `Infinity`/`NaN` (JS semantics of `x / 0`), the
  result lives in the four-point extension `JsNum`.
* `Math.round` is `jsRound` (floor of `x + 1/2`, which is JS's
  round-half-up), `toFixed(2)` followed by `parseFloat` is `jsToFixed2`.
* A JavaScript `Map` is an association list in insertion order:
  `Map.get` is `mapGet`, `Map.set` is `mapSet` (updating an existing key
  in place, appending a new key at the end), `Map.values()` is
  `mapValues`.  This matches the insertion-order iteration semantics of
  JS maps.
* `Array.prototype.sort` (ES2019: stable) is `List.insertionSort`,
  which is stable.  The `localeCompare` comparator on the plain ASCII
  age-group labels is modelled by the lexicographic order on `String`;
  the `new Date(...).getTime()` sort key of the weekly view is modelled
  by making `week_start` a natural number (the date's time value).
-/

namespace Amana

/-- JavaScript number results that can arise from division: a finite
rational, `Infinity`, `-Infinity`, or `NaN`. -/
inductive JsNum where
  | num (q : ℚ)
  | posInf
  | negInf
  | nan
deriving DecidableEq, Repr

/-- JS `Math.round`: round half toward positive infinity. -/
def jsRound (q : ℚ) : ℚ := ((⌊q + 1/2⌋ : ℤ) : ℚ)

/-- JS division `a / b`, total on rationals: `x / 0` is `±Infinity` for
`x ≠ 0` and `0 / 0` is `NaN`. -/
def jsDiv (a b : ℚ) : JsNum :=
  if b = 0 then
    if a = 0 then .nan else if 0 < a then .posInf else .negInf
  else .num (a / b)

/-- Multiplication of a JS division result by a finite constant. -/
def jsMulC (x : JsNum) (q : ℚ) : JsNum :=
  match x with
  | .num a => .num (a * q)
  | .posInf => if 0 < q then .posInf else if q = 0 then .nan else .negInf
  | .negInf => if 0 < q then .negInf else if q = 0 then .nan else .posInf
  | .nan => .nan

/-- JS `parseFloat(x.toFixed(2))`: rounds a finite value to two decimal
places; `Infinity` and `NaN` round-trip unchanged. -/
def jsToFixed2 : JsNum → JsNum
  | .num q => .num (jsRound (q * 100) / 100)
  | x => x

/-- Spec §4.1 apportionment function: `total * (percentage / 100)`. -/
def apportion (total percentage : ℚ) : ℚ := total * (percentage / 100)

/-! ## Domain document (src/types/marketing.ts as used by the views) -/

/-- One weekly breakdown entry.  `week_start` is modelled as the time
value of the parsed date string. -/
structure WeeklyPerformance where
  week_start : Nat
  impressions : ℚ
  clicks : ℚ
  conversions : ℚ
  spend : ℚ
  revenue : ℚ
deriving DecidableEq, Repr

/-- One regional breakdown entry, with its upstream-precomputed rates. -/
structure RegionalPerformance where
  region : String
  country : String
  impressions : ℚ
  clicks : ℚ
  conversions : ℚ
  spend : ℚ
  revenue : ℚ
  ctr : ℚ
  conversion_rate : ℚ
  cpc : ℚ
  cpa : ℚ
  roas : ℚ
deriving DecidableEq, Repr

/-- One demographic breakdown entry. -/
structure DemographicBreakdown where
  age_group : String
  gender : String
  percentage_of_audience : ℚ
deriving DecidableEq, Repr

/-- One device breakdown entry (`device_type` is `"Mobile"`,
`"Desktop"` or `"Tablet"` in well-typed payloads). -/
structure DeviceBreakdown where
  device_type : String
  percentage_of_audience : ℚ
deriving DecidableEq, Repr

/-- A campaign: scalar totals plus the four breakdown collections, all
present (the shape the typed views consume). -/
structure Campaign where
  name : String
  impressions : ℚ
  clicks : ℚ
  conversions : ℚ
  spend : ℚ
  revenue : ℚ
  weekly_performance : List WeeklyPerformance
  regional_performance : List RegionalPerformance
  demographic_breakdown : List DemographicBreakdown
  device_breakdown : List DeviceBreakdown
deriving DecidableEq, Repr

/-- A campaign as it arrives over the wire, where each breakdown
collection may be absent (`none` models a missing/undefined field). -/
structure RawCampaign where
  name : String
  impressions : ℚ
  clicks : ℚ
  conversions : ℚ
  spend : ℚ
  revenue : ℚ
  weekly_performance : Option (List WeeklyPerformance)
  regional_performance : Option (List RegionalPerformance)
  demographic_breakdown : Option (List DemographicBreakdown)
  device_breakdown : Option (List DeviceBreakdown)
deriving DecidableEq, Repr

/-! ## JS `Map` as an insertion-ordered association list -/

section AssocMap

variable {K V E : Type} [DecidableEq K]

/-- JS `Map.get`: first binding of the key, if any. -/
def mapGet : List (K × V) → K → Option V
  | [], _ => none
  | (k', v) :: rest, k => if k' = k then some v else mapGet rest k

/-- JS `Map.set`: update an existing binding in place (keeping its
position), otherwise append a new binding at the end. -/
def mapSet : List (K × V) → K → V → List (K × V)
  | [], k, v => [(k, v)]
  | (k', v') :: rest, k, v =>
    if k' = k then (k, v) :: rest else (k', v') :: mapSet rest k v

/-- JS `Map.values()` in iteration (insertion) order. -/
def mapValues (m : List (K × V)) : List V := m.map Prod.snd

/-- JS `Map.keys()` in iteration (insertion) order. -/
def mapKeys (m : List (K × V)) : List K := m.map Prod.fst

variable (key : E → K) (emit : E → V) (merge : V → E → V)

/-- Generic merge-reduce step shared by the views: look the entry's key
up; merge into the existing accumulator if present, otherwise insert a
fresh accumulator built from the entry. -/
def mergeStep (m : List (K × V)) (e : E) : List (K × V) :=
  match mapGet m (key e) with
  | some existing => mapSet m (key e) (merge existing e)
  | none => mapSet m (key e) (emit e)

/-- Folding a whole entry stream through `mergeStep`. -/
def mergeFold (es : List E) (m : List (K × V)) : List (K × V) :=
  es.foldl (mergeStep key emit merge) m

end AssocMap

/-! ## Weekly view (src/app/weekly-view/page.tsx, getAggregatedWeeklyData) -/

/-- Merge branch of the weekly reducer: add the entry's own metric
values onto the accumulator (lines 59–66 of the weekly view). -/
def weeklyMerge (existing week : WeeklyPerformance) : WeeklyPerformance :=
  { existing with
    impressions := existing.impressions + week.impressions
    clicks := existing.clicks + week.clicks
    conversions := existing.conversions + week.conversions
    spend := existing.spend + week.spend
    revenue := existing.revenue + week.revenue }

/-- Source `getAggregatedWeeklyData`: fold every campaign's weekly entries into
a map keyed by `week_start`, then emit the values sorted ascending by
the week-start date. -/
def getAggregatedWeeklyData (data : Option (List Campaign)) : List WeeklyPerformance :=
  match data with
  | none => []
  | some campaigns =>
    let weeklyMap := campaigns.foldl
      (fun m campaign => campaign.weekly_performance.foldl
        (fun m week => mergeStep (fun w => w.week_start) id weeklyMerge m week) m) []
    (mapValues weeklyMap).insertionSort (fun a b => a.week_start ≤ b.week_start)

/-! ## Regional view (region page, getAggregatedRegionalData) -/

/-- The regional map key `` `${region.region}-${region.country}` ``. -/
def regionalKey (r : RegionalPerformance) : String := r.region ++ "-" ++ r.country

/-- Merge branch of the regional reducer: sum the additive metrics, and
copy the incoming entry's precomputed `ctr`, `conversion_rate`, `cpc`,
`cpa`, `roas` over the accumulator's (lines 50–62 of the region page). -/
def regionalMerge (existing region : RegionalPerformance) : RegionalPerformance :=
  { existing with
    impressions := existing.impressions + region.impressions
    clicks := existing.clicks + region.clicks
    conversions := existing.conversions + region.conversions
    spend := existing.spend + region.spend
    revenue := existing.revenue + region.revenue
    ctr := region.ctr
    conversion_rate := region.conversion_rate
    cpc := region.cpc
    cpa := region.cpa
    roas := region.roas }

/-- Source `getAggregatedRegionalData`: fold every campaign's regional entries
into a map keyed by region-country, then emit the values in insertion
order (no sort). -/
def getAggregatedRegionalData (data : Option (List Campaign)) : List RegionalPerformance :=
  match data with
  | none => []
  | some campaigns =>
    let regionalMap := campaigns.foldl
      (fun m campaign => campaign.regional_performance.foldl
        (fun m region => mergeStep regionalKey id regionalMerge m region) m) []
    mapValues regionalMap

/-! ## Demographic view (src/app/demographic-view/page.tsx) -/

/-- Gender-partitioned totals shown on the metric cards. -/
structure DemographicMetrics where
  maleClicks : ℚ
  maleSpend : ℚ
  maleRevenue : ℚ
  femaleClicks : ℚ
  femaleSpend : ℚ
  femaleRevenue : ℚ
deriving DecidableEq, Repr

/-- All-zero `DemographicMetrics` (the initial accumulator and the
no-data fallback). -/
def zeroDemographicMetrics : DemographicMetrics := ⟨0, 0, 0, 0, 0, 0⟩

/-- Per-entry accumulation step of `processDemographicMetrics` (lines
79–94): apportion the campaign's clicks/spend/revenue by the entry's
percentage and add them to the matching gender's totals; entries with
any other gender value fall through unchanged. -/
def demographicAccum (totalSpend totalRevenue totalClicks : ℚ)
    (metrics : DemographicMetrics) (demo : DemographicBreakdown) : DemographicMetrics :=
  let percentage := demo.percentage_of_audience / 100
  let clicks := jsRound (totalClicks * percentage)
  let spend := totalSpend * percentage
  let revenue := totalRevenue * percentage
  if demo.gender = "Male" then
    { metrics with
      maleClicks := metrics.maleClicks + clicks
      maleSpend := metrics.maleSpend + spend
      maleRevenue := metrics.maleRevenue + revenue }
  else if demo.gender = "Female" then
    { metrics with
      femaleClicks := metrics.femaleClicks + clicks
      femaleSpend := metrics.femaleSpend + spend
      femaleRevenue := metrics.femaleRevenue + revenue }
  else metrics

/-- Source `processDemographicMetrics`: gender totals over every campaign's
demographic breakdown. -/
def processDemographicMetrics (data : Option (List Campaign)) : DemographicMetrics :=
  match data with
  | none => zeroDemographicMetrics
  | some campaigns =>
    campaigns.foldl (fun metrics campaign =>
      campaign.demographic_breakdown.foldl
        (demographicAccum campaign.spend campaign.revenue campaign.clicks)
        metrics) zeroDemographicMetrics

/-- Source `processDemographicMetrics` over raw payloads: dereferencing an
absent `demographic_breakdown` faults, as `undefined.forEach` does. -/
def processDemographicMetricsRaw (data : Option (List RawCampaign)) :
    Except String DemographicMetrics :=
  match data with
  | none => .ok zeroDemographicMetrics
  | some campaigns =>
    campaigns.foldlM (fun metrics campaign =>
      match campaign.demographic_breakdown with
      | none => .error "TypeError: campaign.demographic_breakdown is undefined"
      | some breakdown => .ok (breakdown.foldl
          (demographicAccum campaign.spend campaign.revenue campaign.clicks)
          metrics)) zeroDemographicMetrics

/-- One row of the age-group spend/revenue charts. -/
structure AgeGroupData where
  ageGroup : String
  spend : ℚ
  revenue : ℚ
deriving DecidableEq, Repr

/-- One demographic entry's effect on the age-group map (lines 112–122
of the demographic view): read the existing `{spend, revenue}`
accumulator (defaulting to zeros), add the apportioned spend and
revenue, and write it back under the entry's age group. -/
def ageGroupStep (m : List (String × (ℚ × ℚ)))
    (ce : Campaign × DemographicBreakdown) : List (String × (ℚ × ℚ)) :=
  let percentage := ce.2.percentage_of_audience / 100
  let spend := ce.1.spend * percentage
  let revenue := ce.1.revenue * percentage
  let existing := (mapGet m ce.2.age_group).getD (0, 0)
  mapSet m ce.2.age_group (existing.1 + spend, existing.2 + revenue)

/-- Source `processAgeGroupData`: fold every demographic entry (regardless of
gender) into a map keyed by age group, accumulating apportioned spend
and revenue, then emit two chart series sorted by age-group label. -/
def processAgeGroupData (data : Option (List Campaign)) :
    List AgeGroupData × List AgeGroupData :=
  match data with
  | none => ([], [])
  | some campaigns =>
    let ageGroupMap : List (String × (ℚ × ℚ)) := campaigns.foldl
      (fun m campaign => campaign.demographic_breakdown.foldl
        (fun m demo => ageGroupStep m (campaign, demo)) m) []
    ((ageGroupMap.map (fun p => AgeGroupData.mk p.1 p.2.1 0)).insertionSort
        (fun a b => a.ageGroup ≤ b.ageGroup),
     (ageGroupMap.map (fun p => AgeGroupData.mk p.1 0 p.2.2)).insertionSort
        (fun a b => a.ageGroup ≤ b.ageGroup))

/-- One row of the gender performance tables. -/
structure CampaignPerformance where
  ageGroup : String
  gender : String
  impressions : ℚ
  clicks : ℚ
  conversions : ℚ
  ctr : JsNum
  conversionRate : JsNum
deriving DecidableEq, Repr

/-- Fresh performance record for one demographic entry (lines 150–166):
apportion the campaign totals and derive the rates, where the `ctr`
guard checks `clicks > 0` (not `impressions > 0`). -/
def demoPerformance (campaign : Campaign) (demo : DemographicBreakdown) : CampaignPerformance :=
  let percentage := demo.percentage_of_audience / 100
  let impressions := jsRound (campaign.impressions * percentage)
  let clicks := jsRound (campaign.clicks * percentage)
  let conversions := jsRound (campaign.conversions * percentage)
  let ctr := if 0 < clicks then jsMulC (jsDiv clicks impressions) 100 else .num 0
  let conversionRate := if 0 < clicks then jsMulC (jsDiv conversions clicks) 100 else .num 0
  { ageGroup := demo.age_group
    gender := demo.gender
    impressions := impressions
    clicks := clicks
    conversions := conversions
    ctr := jsToFixed2 ctr
    conversionRate := jsToFixed2 conversionRate }

/-- Merge branch of the gender maps (lines 170–175 / 181–186): add the
entry's apportioned metrics to the bucket, then recompute both rates
from the updated sums, again guarding both on the updated `clicks`. -/
def demoMerge (existing : CampaignPerformance)
    (ce : Campaign × DemographicBreakdown) : CampaignPerformance :=
  let percentage := ce.2.percentage_of_audience / 100
  let impressions := existing.impressions + jsRound (ce.1.impressions * percentage)
  let clicks := existing.clicks + jsRound (ce.1.clicks * percentage)
  let conversions := existing.conversions + jsRound (ce.1.conversions * percentage)
  { existing with
    impressions := impressions
    clicks := clicks
    conversions := conversions
    ctr := if 0 < clicks then jsToFixed2 (jsMulC (jsDiv clicks impressions) 100) else .num 0
    conversionRate :=
      if 0 < clicks then jsToFixed2 (jsMulC (jsDiv conversions clicks) 100) else .num 0 }

/-- Key of the gender maps: the entry's age group. -/
def demoKey (ce : Campaign × DemographicBreakdown) : String := ce.2.age_group

/-- Fresh bucket for the gender maps. -/
def demoEmit (ce : Campaign × DemographicBreakdown) : CampaignPerformance :=
  demoPerformance ce.1 ce.2

/-- One entry's effect on the `(maleMap, femaleMap)` pair: `Male`
entries go through the merge step of the male map, `Female` entries
through the female map, anything else is dropped silently. -/
def demoPairStep
    (maps : List (String × CampaignPerformance) × List (String × CampaignPerformance))
    (ce : Campaign × DemographicBreakdown) :
    List (String × CampaignPerformance) × List (String × CampaignPerformance) :=
  if ce.2.gender = "Male" then
    (mergeStep demoKey demoEmit demoMerge maps.1 ce, maps.2)
  else if ce.2.gender = "Female" then
    (maps.1, mergeStep demoKey demoEmit demoMerge maps.2 ce)
  else maps

/-- Source `processCampaignPerformance`: fold every campaign's demographic
entries into the two gender maps, then emit both value lists sorted by
age-group label. -/
def processCampaignPerformance (data : Option (List Campaign)) :
    List CampaignPerformance × List CampaignPerformance :=
  match data with
  | none => ([], [])
  | some campaigns =>
    let maps := campaigns.foldl
      (fun maps campaign => campaign.demographic_breakdown.foldl
        (fun maps demo => demoPairStep maps (campaign, demo)) maps) ([], [])
    ((mapValues maps.1).insertionSort (fun a b => a.ageGroup ≤ b.ageGroup),
     (mapValues maps.2).insertionSort (fun a b => a.ageGroup ≤ b.ageGroup))

/-! ## Device view (device page) -/

/-- Device totals shown on the metric cards. -/
structure DeviceMetrics where
  mobileClicks : ℚ
  mobileSpend : ℚ
  mobileRevenue : ℚ
  desktopClicks : ℚ
  desktopSpend : ℚ
  desktopRevenue : ℚ
  tabletClicks : ℚ
  tabletSpend : ℚ
  tabletRevenue : ℚ
deriving DecidableEq, Repr

/-- All-zero `DeviceMetrics`. -/
def zeroDeviceMetrics : DeviceMetrics := ⟨0, 0, 0, 0, 0, 0, 0, 0, 0⟩

/-- Source `processDeviceMetrics`: apportion each campaign's clicks, spend and
revenue by the device entry's percentage and add them to the device
type's totals (the `switch` has no default: other types fall through). -/
def processDeviceMetrics (data : Option (List Campaign)) : DeviceMetrics :=
  match data with
  | none => zeroDeviceMetrics
  | some campaigns =>
    campaigns.foldl (fun metrics campaign =>
      campaign.device_breakdown.foldl (fun metrics device =>
        let percentage := device.percentage_of_audience / 100
        let clicks := jsRound (campaign.clicks * percentage)
        let spend := campaign.spend * percentage
        let revenue := campaign.revenue * percentage
        if device.device_type = "Mobile" then
          { metrics with
            mobileClicks := metrics.mobileClicks + clicks
            mobileSpend := metrics.mobileSpend + spend
            mobileRevenue := metrics.mobileRevenue + revenue }
        else if device.device_type = "Desktop" then
          { metrics with
            desktopClicks := metrics.desktopClicks + clicks
            desktopSpend := metrics.desktopSpend + spend
            desktopRevenue := metrics.desktopRevenue + revenue }
        else if device.device_type = "Tablet" then
          { metrics with
            tabletClicks := metrics.tabletClicks + clicks
            tabletSpend := metrics.tabletSpend + spend
            tabletRevenue := metrics.tabletRevenue + revenue }
        else metrics) metrics) zeroDeviceMetrics

/-- One device entry's effect on the chart-data map (lines 141–151 of
the device page): read the existing `{spend, revenue}` accumulator
(defaulting to zeros), add the apportioned spend and revenue, and write
it back under the entry's device type. -/
def deviceChartStep (m : List (String × (ℚ × ℚ)))
    (ce : Campaign × DeviceBreakdown) : List (String × (ℚ × ℚ)) :=
  let percentage := ce.2.percentage_of_audience / 100
  let spend := ce.1.spend * percentage
  let revenue := ce.1.revenue * percentage
  let existing := (mapGet m ce.2.device_type).getD (0, 0)
  mapSet m ce.2.device_type (existing.1 + spend, existing.2 + revenue)

/-- Source `processDeviceChartData`: fold every campaign's device entries into
a map keyed by device type, accumulating apportioned spend and revenue,
then emit the `(label, value)` chart series in insertion order. -/
def processDeviceChartData (data : Option (List Campaign)) :
    List (String × ℚ) × List (String × ℚ) :=
  match data with
  | none => ([], [])
  | some campaigns =>
    let deviceMap : List (String × (ℚ × ℚ)) := campaigns.foldl
      (fun m campaign => campaign.device_breakdown.foldl
        (fun m device => deviceChartStep m (campaign, device)) m) []
    (deviceMap.map (fun p => (p.1, p.2.1)), deviceMap.map (fun p => (p.1, p.2.2)))

/-- One row of the per-device campaign performance tables. -/
structure CampaignPerformanceByDevice where
  campaignName : String
  deviceType : String
  impressions : ℚ
  clicks : ℚ
  conversions : ℚ
  ctr : JsNum
  conversionRate : JsNum
deriving DecidableEq, Repr

/-- Performance record for one campaign and device entry (lines
169–185 of the device page): here the `ctr` guard checks
`impressions > 0` and the `conversionRate` guard checks `clicks > 0`. -/
def devicePerformance (campaign : Campaign) (device : DeviceBreakdown) :
    CampaignPerformanceByDevice :=
  let percentage := device.percentage_of_audience / 100
  let impressions := jsRound (campaign.impressions * percentage)
  let clicks := jsRound (campaign.clicks * percentage)
  let conversions := jsRound (campaign.conversions * percentage)
  let ctr := if 0 < impressions then jsMulC (jsDiv clicks impressions) 100 else .num 0
  let conversionRate := if 0 < clicks then jsMulC (jsDiv conversions clicks) 100 else .num 0
  { campaignName := campaign.name
    deviceType := device.device_type
    impressions := impressions
    clicks := clicks
    conversions := conversions
    ctr := jsToFixed2 ctr
    conversionRate := jsToFixed2 conversionRate }

/-- One device entry's effect on the three table lists: push its
performance row onto the list selected by the `switch` on the device
type (no default case: other types fall through). -/
def deviceTableStep
    (lists : List CampaignPerformanceByDevice × List CampaignPerformanceByDevice ×
      List CampaignPerformanceByDevice)
    (ce : Campaign × DeviceBreakdown) :
    List CampaignPerformanceByDevice × List CampaignPerformanceByDevice ×
      List CampaignPerformanceByDevice :=
  let performance := devicePerformance ce.1 ce.2
  if ce.2.device_type = "Mobile" then
    (lists.1 ++ [performance], lists.2.1, lists.2.2)
  else if ce.2.device_type = "Desktop" then
    (lists.1, lists.2.1 ++ [performance], lists.2.2)
  else if ce.2.device_type = "Tablet" then
    (lists.1, lists.2.1, lists.2.2 ++ [performance])
  else lists

/-- Source `processCampaignPerformanceByDevice`: collect one performance row
per campaign-and-device entry into the mobile, desktop and tablet table
lists, in input order. -/
def processCampaignPerformanceByDevice (data : Option (List Campaign)) :
    List CampaignPerformanceByDevice × List CampaignPerformanceByDevice ×
      List CampaignPerformanceByDevice :=
  match data with
  | none => ([], [], [])
  | some campaigns =>
    campaigns.foldl (fun lists campaign =>
      campaign.device_breakdown.foldl
        (fun lists device => deviceTableStep lists (campaign, device)) lists) ([], [], [])

/-- Device-breakdown synthesis in the device view's `fetchData` (lines
75–83): three synthetic entries whose percentages are the three random
draws, then each divided by their common sum and scaled to 100. -/
def synthDeviceBreakdown (m d t : ℚ) : List DeviceBreakdown :=
  let breakdown : List DeviceBreakdown :=
    [⟨"Mobile", m⟩, ⟨"Desktop", d⟩, ⟨"Tablet", t⟩]
  let total := (breakdown.map (fun db => db.percentage_of_audience)).sum
  breakdown.map (fun db =>
    { db with percentage_of_audience := db.percentage_of_audience / total * 100 })

/-- The source `fetchData`'s per-campaign device-breakdown fixup: keep an existing
breakdown, synthesize one (from the three random draws `m`, `d`, `t`)
when the field is absent. -/
def fetchDeviceBreakdown (bd : Option (List DeviceBreakdown)) (m d t : ℚ) :
    List DeviceBreakdown :=
  match bd with
  | some breakdown => breakdown
  | none => synthDeviceBreakdown m d t

/-! ## Bubble map (src/components/ui/bubble-map.tsx) -/

/-- One point of the geographic series handed to the map widget.  The
`additionalData` record is modelled by the five `add*` fields. -/
structure BubbleMapDataPoint where
  region : String
  country : String
  latitude : ℚ
  longitude : ℚ
  value : ℚ
  addRevenue : ℚ
  addSpend : ℚ
  addImpressions : ℚ
  addClicks : ℚ
  addConversions : ℚ
deriving DecidableEq, Repr

/-- The static city-coordinates lookup table (CITY_COORDINATES). -/
def cityCoordinates (name : String) : Option (ℚ × ℚ) :=
  if name = "Abu Dhabi" then some (24.4539, 54.3773)
  else if name = "Dubai" then some (25.2048, 55.2708)
  else if name = "Sharjah" then some (25.3573, 55.4033)
  else if name = "Riyadh" then some (24.7136, 46.6753)
  else if name = "Doha" then some (25.2854, 51.531)
  else if name = "Kuwait City" then some (29.3759, 47.9774)
  else if name = "Manama" then some (26.0667, 50.5577)
  else none

/-- The metric selector argument of the bubble-map transformation. -/
inductive ValueType where
  | revenue
  | spend
  | impressions
  | clicks
  | conversions
deriving DecidableEq, Repr

/-- JS `item[valueType]`: the selected metric of a regional record. -/
def selectValue (valueType : ValueType) (item : RegionalPerformance) : ℚ :=
  match valueType with
  | .revenue => item.revenue
  | .spend => item.spend
  | .impressions => item.impressions
  | .clicks => item.clicks
  | .conversions => item.conversions

/-- Source `transformRegionalDataForBubbleMap`: map each record to a bubble
point when its region is in the coordinates table (`null` otherwise),
then `filter(Boolean)` the nulls away. -/
def transformRegionalDataForBubbleMap (regionalData : List RegionalPerformance)
    (valueType : ValueType) : List BubbleMapDataPoint :=
  (regionalData.map (fun item =>
    match cityCoordinates item.region with
    | none => none
    | some coordinates => some
        { region := item.region
          country := item.country
          latitude := coordinates.1
          longitude := coordinates.2
          value := selectValue valueType item
          addRevenue := item.revenue
          addSpend := item.spend
          addImpressions := item.impressions
          addClicks := item.clicks
          addConversions := item.conversions })).reduceOption

/-- The `console.warn` diagnostics emitted by the transformation, one
per record whose region is missing from the coordinates table. -/
def transformRegionalWarnings (regionalData : List RegionalPerformance) : List String :=
  (regionalData.map (fun item =>
    match cityCoordinates item.region with
    | none => some ("Coordinates not found for region: " ++ item.region)
    | some _ => none)).reduceOption

/-- Source `getRadius` of the bubble map: midpoint radius in the degenerate
`max = min` case, otherwise linear interpolation between `minRadius`
and `maxRadius`. -/
def getRadius (minRadius maxRadius : ℚ) (value minValue maxValue : ℚ) : ℚ :=
  if maxValue = minValue then (minRadius + maxRadius) / 2
  else
    let r := (value - minValue) / (maxValue - minValue)
    minRadius + (maxRadius - minRadius) * r

/-- Source `getColor` of the bubble map: the fixed default `"#3B82F6"` in the
degenerate `max = min` case, otherwise a blue-to-red gradient. -/
def getColor (value minValue maxValue : ℚ) : String :=
  if maxValue = minValue then "#3B82F6"
  else
    let r := (value - minValue) / (maxValue - minValue)
    if r < 1/2 then
      let intensity := r * 2
      "rgb(" ++ toString ⌊(59 : ℚ) + intensity * 196⌋ ++ ", " ++
        toString ⌊(130 : ℚ) + intensity * 125⌋ ++ ", " ++
        toString ⌊(246 : ℚ) - intensity * 246⌋ ++ ")"
    else
      let intensity := (r - 1/2) * 2
      "rgb(" ++ toString ⌊(255 : ℚ) - intensity * 255⌋ ++ ", " ++
        toString ⌊(255 : ℚ) - intensity * 255⌋ ++ ", " ++
        toString ⌊(246 : ℚ) - intensity * 246⌋ ++ ")"

/-- JS `Math.min(...values)` over a nonempty list (0 on the empty list,
which the component never reaches thanks to its empty-data guard). -/
def listMin : List ℚ → ℚ
  | [] => 0
  | x :: xs => xs.foldl min x

/-- JS `Math.max(...values)` over a nonempty list (0 on the empty list). -/
def listMax : List ℚ → ℚ
  | [] => 0
  | x :: xs => xs.foldl max x

/-- The radius the component assigns to one data point: `getRadius`
against the dataset's observed minimum and maximum value. -/
def bubbleRadius (minRadius maxRadius : ℚ) (data : List BubbleMapDataPoint)
    (item : BubbleMapDataPoint) : ℚ :=
  getRadius minRadius maxRadius item.value
    (listMin (data.map (fun p => p.value))) (listMax (data.map (fun p => p.value)))

/-- The fill color the component assigns to one data point. -/
def bubbleColor (data : List BubbleMapDataPoint) (item : BubbleMapDataPoint) : String :=
  getColor item.value
    (listMin (data.map (fun p => p.value))) (listMax (data.map (fun p => p.value)))

/-! ## Entry streams and shared helper definitions for the theorems -/

/-- All weekly entries of a campaign list, in traversal order. -/
def allWeekly (cs : List Campaign) : List WeeklyPerformance :=
  cs.flatMap (fun c => c.weekly_performance)

/-- All regional entries of a campaign list, in traversal order. -/
def allRegional (cs : List Campaign) : List RegionalPerformance :=
  cs.flatMap (fun c => c.regional_performance)

/-- All demographic entries paired with their campaign, in traversal
order. -/
def demoPairs (cs : List Campaign) : List (Campaign × DemographicBreakdown) :=
  cs.flatMap (fun c => c.demographic_breakdown.map (fun d => (c, d)))

/-- All device entries paired with their campaign, in traversal order. -/
def devicePairs (cs : List Campaign) : List (Campaign × DeviceBreakdown) :=
  cs.flatMap (fun c => c.device_breakdown.map (fun d => (c, d)))

/-- Keys of a list in order of first appearance, continuing from an
already-seen accumulator. -/
def firstAppAux {K : Type} [DecidableEq K] (acc : List K) (ks : List K) : List K :=
  ks.foldl (fun acc k => if k ∈ acc then acc else acc ++ [k]) acc

/-- Keys of a list in order of first appearance. -/
def firstApp {K : Type} [DecidableEq K] (ks : List K) : List K := firstAppAux [] ks

/-! ## Association-map lemmas -/

section AssocMapLemmas

variable {K V E : Type} [DecidableEq K]

theorem mapGet_mapSet (m : List (K × V)) (k : K) (v : V) (k' : K) :
    mapGet (mapSet m k v) k' = if k = k' then some v else mapGet m k' := by
  induction m with
  | nil => simp [mapGet, mapSet]
  | cons p rest ih =>
    obtain ⟨pk, pv⟩ := p
    by_cases h : pk = k
    · subst h
      by_cases hk : pk = k' <;> simp [mapSet, mapGet, hk]
    · by_cases hk : pk = k'
      · subst hk
        have hne : k ≠ pk := fun hc => h hc.symm
        simp [mapSet, mapGet, h, hne]
      · simp [mapSet, mapGet, h, hk, ih]

theorem mapKeys_mapSet (m : List (K × V)) (k : K) (v : V) :
    mapKeys (mapSet m k v) =
      if k ∈ mapKeys m then mapKeys m else mapKeys m ++ [k] := by
  induction m with
  | nil => simp [mapKeys, mapSet]
  | cons p rest ih =>
    obtain ⟨pk, pv⟩ := p
    by_cases h : pk = k
    · subst h
      simp [mapSet, mapKeys]
    · have hne : k ≠ pk := fun hc => h hc.symm
      simp only [mapSet, if_neg h, mapKeys, List.map_cons]
      simp only [mapKeys] at ih
      rw [ih]
      by_cases h2 : k ∈ rest.map Prod.fst
      · simp [h2, hne]
      · simp [h2, hne]

theorem mapGet_eq_none_iff (m : List (K × V)) (k : K) :
    mapGet m k = none ↔ k ∉ mapKeys m := by
  induction m with
  | nil => simp [mapGet, mapKeys]
  | cons p rest ih =>
    obtain ⟨pk, pv⟩ := p
    by_cases h : pk = k
    · subst h
      simp [mapGet, mapKeys]
    · have hne : k ≠ pk := fun hc => h hc.symm
      simp only [mapGet, if_neg h, mapKeys, List.map_cons, List.mem_cons, not_or, ih]
      tauto

theorem mem_of_mapGet_eq_some {m : List (K × V)} {k : K} {v : V}
    (h : mapGet m k = some v) : (k, v) ∈ m := by
  induction m with
  | nil => simp [mapGet] at h
  | cons p rest ih =>
    obtain ⟨pk, pv⟩ := p
    by_cases hk : pk = k
    · subst hk
      simp [mapGet] at h
      simp [h]
    · simp [mapGet, hk] at h
      exact List.mem_cons_of_mem _ (ih h)

theorem mapKeys_mem_of_mapGet_eq_some {m : List (K × V)} {k : K} {v : V}
    (h : mapGet m k = some v) : k ∈ mapKeys m := by
  have := mem_of_mapGet_eq_some h
  exact List.mem_map.2 ⟨(k, v), this, rfl⟩

theorem mapGet_eq_some_of_mem_nodup {m : List (K × V)} {k : K} {v : V}
    (hmem : (k, v) ∈ m) (hnd : (mapKeys m).Nodup) : mapGet m k = some v := by
  induction m with
  | nil => simp at hmem
  | cons p rest ih =>
    obtain ⟨pk, pv⟩ := p
    simp only [mapKeys, List.map_cons, List.nodup_cons] at hnd
    rcases List.mem_cons.1 hmem with h | h
    · injection h with h1 h2
      subst h1
      subst h2
      simp [mapGet]
    · by_cases hk : pk = k
      · subst hk
        exact absurd (List.mem_map.2 ⟨(pk, v), h, rfl⟩) hnd.1
      · simp only [mapGet, if_neg hk]
        exact ih h hnd.2

theorem mem_mapSet {m : List (K × V)} {k : K} {v : V} {p : K × V}
    (h : p ∈ mapSet m k v) : p = (k, v) ∨ p ∈ m := by
  induction m with
  | nil => simpa [mapSet] using h
  | cons q rest ih =>
    obtain ⟨qk, qv⟩ := q
    by_cases hk : qk = k
    · subst hk
      simp only [mapSet, if_pos rfl] at h
      rcases List.mem_cons.1 h with h | h
      · exact Or.inl h
      · exact Or.inr (List.mem_cons_of_mem _ h)
    · simp only [mapSet, if_neg hk] at h
      rcases List.mem_cons.1 h with h | h
      · exact Or.inr (h ▸ List.mem_cons_self _ _)
      · rcases ih h with h | h
        · exact Or.inl h
        · exact Or.inr (List.mem_cons_of_mem _ h)

theorem mem_mapValues_mapSet {m : List (K × V)} {k : K} {v₀ v : V}
    (h : v ∈ mapValues (mapSet m k v₀)) : v = v₀ ∨ v ∈ mapValues m := by
  obtain ⟨⟨k', v'⟩, hp, rfl⟩ := List.mem_map.1 h
  rcases mem_mapSet hp with h | h
  · injection h with h1 h2
    exact Or.inl h2
  · exact Or.inr (List.mem_map.2 ⟨(k', v'), h, rfl⟩)

theorem exists_key_of_mem_mapValues {m : List (K × V)} {v : V}
    (h : v ∈ mapValues m) : ∃ k, (k, v) ∈ m := by
  obtain ⟨⟨k, v'⟩, hp, rfl⟩ := List.mem_map.1 h
  exact ⟨k, hp⟩

end AssocMapLemmas

/-! ## Merge-fold lemmas -/

section MergeFoldLemmas

variable {K V E : Type} [DecidableEq K]
variable (key : E → K) (emit : E → V) (merge : V → E → V)

theorem mapKeys_mergeStep (m : List (K × V)) (e : E) :
    mapKeys (mergeStep key emit merge m e) =
      if key e ∈ mapKeys m then mapKeys m else mapKeys m ++ [key e] := by
  unfold mergeStep
  cases h : mapGet m (key e) with
  | some ex =>
    have hmem : key e ∈ mapKeys m := mapKeys_mem_of_mapGet_eq_some h
    rw [mapKeys_mapSet, if_pos hmem]
  | none =>
    have hmem : key e ∉ mapKeys m := (mapGet_eq_none_iff m (key e)).1 h
    rw [mapKeys_mapSet, if_neg hmem]

theorem mergeFold_cons (e : E) (es : List E) (m : List (K × V)) :
    mergeFold key emit merge (e :: es) m =
      mergeFold key emit merge es (mergeStep key emit merge m e) := rfl

theorem mapKeys_mergeFold (es : List E) :
    ∀ m : List (K × V),
      mapKeys (mergeFold key emit merge es m) = firstAppAux (mapKeys m) (es.map key) := by
  induction es with
  | nil => intro m; rfl
  | cons e es ih =>
    intro m
    rw [mergeFold_cons, ih, List.map_cons, mapKeys_mergeStep]
    rfl

theorem nodup_mapKeys_mergeFold (es : List E) :
    ∀ m : List (K × V), (mapKeys m).Nodup →
      (mapKeys (mergeFold key emit merge es m)).Nodup := by
  induction es with
  | nil => intro m h; exact h
  | cons e es ih =>
    intro m h
    rw [mergeFold_cons]
    apply ih
    rw [mapKeys_mergeStep]
    by_cases hm : key e ∈ mapKeys m
    · simpa [hm]
    · simp [hm, List.nodup_append, h]

theorem mergeFold_get_sum (f : V → ℚ) (g : E → ℚ)
    (hmerge : ∀ v e, f (merge v e) = f v + g e)
    (hemit : ∀ e, f (emit e) = g e) (es : List E) :
    ∀ (m : List (K × V)) (k : K) (b : V),
      mapGet (mergeFold key emit merge es m) k = some b →
      f b = (mapGet m k).elim 0 f + ((es.filter (fun e => key e = k)).map g).sum := by
  induction es with
  | nil =>
    intro m k b hb
    simp only [mergeFold, List.foldl_nil] at hb
    simp [hb]
  | cons e es ih =>
    intro m k b hb
    rw [mergeFold_cons] at hb
    have h2 := ih (mergeStep key emit merge m e) k b hb
    by_cases hk : key e = k
    · subst hk
      rw [h2]
      unfold mergeStep
      cases h : mapGet m (key e) with
      | some ex =>
        rw [mapGet_mapSet, if_pos rfl]
        simp [h, hmerge, List.filter_cons, add_assoc]
      | none =>
        rw [mapGet_mapSet, if_pos rfl]
        simp [h, hemit, List.filter_cons]
    · rw [h2]
      have hget : mapGet (mergeStep key emit merge m e) k = mapGet m k := by
        unfold mergeStep
        cases h : mapGet m (key e) <;> rw [mapGet_mapSet, if_neg hk]
      rw [hget]
      have : ((e :: es).filter (fun e => key e = k)) = es.filter (fun e => key e = k) := by
        simp [List.filter_cons, hk]
      rw [this]

theorem mergeFold_keyOf (keyOf : V → K)
    (hemit : ∀ e, keyOf (emit e) = key e)
    (hmerge : ∀ v e, keyOf (merge v e) = keyOf v) (es : List E) :
    ∀ m : List (K × V), (∀ p ∈ m, keyOf p.2 = p.1) →
      ∀ p ∈ mergeFold key emit merge es m, keyOf p.2 = p.1 := by
  induction es with
  | nil => intro m h p hp; exact h p hp
  | cons e es ih =>
    intro m h p hp
    rw [mergeFold_cons] at hp
    refine ih _ ?_ p hp
    intro q hq
    unfold mergeStep at hq
    cases hg : mapGet m (key e) with
    | some ex =>
      rw [hg] at hq
      rcases mem_mapSet hq with rfl | hq'
      · have hx := h _ (mem_of_mapGet_eq_some hg)
        simpa [hmerge] using hx
      · exact h q hq'
    | none =>
      rw [hg] at hq
      rcases mem_mapSet hq with rfl | hq'
      · simpa using hemit e
      · exact h q hq'

theorem mergeFold_values_prop (P : V → Prop)
    (hemit : ∀ e, P (emit e)) (hmerge : ∀ v e, P (merge v e)) (es : List E) :
    ∀ m : List (K × V), (∀ v ∈ mapValues m, P v) →
      ∀ v ∈ mapValues (mergeFold key emit merge es m), P v := by
  induction es with
  | nil => intro m h v hv; exact h v hv
  | cons e es ih =>
    intro m h v hv
    rw [mergeFold_cons] at hv
    refine ih _ ?_ v hv
    intro w hw
    unfold mergeStep at hw
    cases hg : mapGet m (key e) with
    | some ex =>
      rw [hg] at hw
      rcases mem_mapValues_mapSet hw with rfl | hw'
      · exact hmerge ex e
      · exact h w hw'
    | none =>
      rw [hg] at hw
      rcases mem_mapValues_mapSet hw with rfl | hw'
      · exact hemit e
      · exact h w hw'

end MergeFoldLemmas

/-! ## Fold-shape lemmas -/

theorem foldl_nested_entries {C E σ : Type} (ents : C → List E) (step : σ → E → σ) :
    ∀ (cs : List C) (s : σ),
      cs.foldl (fun s c => (ents c).foldl step s) s = (cs.flatMap ents).foldl step s := by
  intro cs
  induction cs with
  | nil => intro s; rfl
  | cons c cs ih =>
    intro s
    rw [List.flatMap_cons, List.foldl_append, List.foldl_cons, ih]

theorem foldl_nested_pairs {C E σ : Type} (ents : C → List E) (step : σ → C × E → σ) :
    ∀ (cs : List C) (s : σ),
      cs.foldl (fun s c => (ents c).foldl (fun s e => step s (c, e)) s) s =
        (cs.flatMap (fun c => (ents c).map (fun e => (c, e)))).foldl step s := by
  intro cs
  induction cs with
  | nil => intro s; rfl
  | cons c cs ih =>
    intro s
    rw [List.flatMap_cons, List.foldl_append, List.foldl_cons, ih, List.foldl_map]

theorem foldl_filter_eq {α σ : Type} (p : α → Bool) (step : σ → α → σ)
    (h : ∀ s a, p a = false → step s a = s) :
    ∀ (l : List α) (s : σ), (l.filter p).foldl step s = l.foldl step s := by
  intro l
  induction l with
  | nil => intro s; rfl
  | cons a l ih =>
    intro s
    by_cases hp : p a
    · rw [List.filter_cons, if_pos hp, List.foldl_cons, List.foldl_cons, ih]
    · rw [List.filter_cons, if_neg (by simp [hp]), List.foldl_cons, ih,
        h s a (by simpa using hp)]

theorem foldl_ext {α σ : Type} (f g : σ → α → σ) (h : ∀ s a, f s a = g s a) :
    ∀ (l : List α) (s : σ), l.foldl f s = l.foldl g s := by
  intro l
  induction l with
  | nil => intro s; rfl
  | cons a l ih => intro s; rw [List.foldl_cons, List.foldl_cons, h, ih]

/-! ## The view folds in merge-fold form -/

/-- Key of the weekly map. -/
def weeklyKey (w : WeeklyPerformance) : Nat := w.week_start

theorem getAggregatedWeeklyData_eq (cs : List Campaign) :
    getAggregatedWeeklyData (some cs) =
      (mapValues (mergeFold weeklyKey id weeklyMerge (allWeekly cs) [])).insertionSort
        (fun a b => a.week_start ≤ b.week_start) := by
  simp only [getAggregatedWeeklyData, allWeekly, mergeFold]
  rw [foldl_nested_entries]
  rfl

theorem getAggregatedRegionalData_eq (cs : List Campaign) :
    getAggregatedRegionalData (some cs) =
      mapValues (mergeFold regionalKey id regionalMerge (allRegional cs) []) := by
  simp only [getAggregatedRegionalData, allRegional, mergeFold]
  rw [foldl_nested_entries]

theorem demoPairFold_eq (es : List (Campaign × DemographicBreakdown)) :
    ∀ mm fm, es.foldl demoPairStep (mm, fm) =
      (mergeFold demoKey demoEmit demoMerge
        (es.filter (fun ce => ce.2.gender = "Male")) mm,
       mergeFold demoKey demoEmit demoMerge
        (es.filter (fun ce => ce.2.gender = "Female")) fm) := by
  induction es with
  | nil => intro mm fm; rfl
  | cons ce es ih =>
    intro mm fm
    by_cases hM : ce.2.gender = "Male"
    · have hF : ¬ ce.2.gender = "Female" := by rw [hM]; intro h; exact absurd h (by decide)
      have h1 : demoPairStep (mm, fm) ce =
          (mergeStep demoKey demoEmit demoMerge mm ce, fm) := by
        simp [demoPairStep, hM]
      rw [List.foldl_cons, h1, ih]
      have h2 : ((ce :: es).filter (fun ce => ce.2.gender = "Male")) =
          ce :: es.filter (fun ce => ce.2.gender = "Male") := by
        simp [List.filter_cons, hM]
      have h3 : ((ce :: es).filter (fun ce => ce.2.gender = "Female")) =
          es.filter (fun ce => ce.2.gender = "Female") := by
        simp [List.filter_cons, hF]
      rw [h2, h3, mergeFold_cons]
    · by_cases hF : ce.2.gender = "Female"
      · have h1 : demoPairStep (mm, fm) ce =
            (mm, mergeStep demoKey demoEmit demoMerge fm ce) := by
          simp [demoPairStep, hM, hF]
        rw [List.foldl_cons, h1, ih]
        have h2 : ((ce :: es).filter (fun ce => ce.2.gender = "Male")) =
            es.filter (fun ce => ce.2.gender = "Male") := by
          simp [List.filter_cons, hM]
        have h3 : ((ce :: es).filter (fun ce => ce.2.gender = "Female")) =
            ce :: es.filter (fun ce => ce.2.gender = "Female") := by
          simp [List.filter_cons, hF]
        rw [h2, h3, mergeFold_cons]
      · have h1 : demoPairStep (mm, fm) ce = (mm, fm) := by
          simp [demoPairStep, hM, hF]
        rw [List.foldl_cons, h1, ih]
        have h2 : ((ce :: es).filter (fun ce => ce.2.gender = "Male")) =
            es.filter (fun ce => ce.2.gender = "Male") := by
          simp [List.filter_cons, hM]
        have h3 : ((ce :: es).filter (fun ce => ce.2.gender = "Female")) =
            es.filter (fun ce => ce.2.gender = "Female") := by
          simp [List.filter_cons, hF]
        rw [h2, h3]

/-- The male-gender slice of the demographic pair stream. -/
def malePairs (cs : List Campaign) : List (Campaign × DemographicBreakdown) :=
  (demoPairs cs).filter (fun ce => ce.2.gender = "Male")

/-- The female-gender slice of the demographic pair stream. -/
def femalePairs (cs : List Campaign) : List (Campaign × DemographicBreakdown) :=
  (demoPairs cs).filter (fun ce => ce.2.gender = "Female")

theorem processCampaignPerformance_eq (cs : List Campaign) :
    processCampaignPerformance (some cs) =
      ((mapValues (mergeFold demoKey demoEmit demoMerge (malePairs cs) [])).insertionSort
          (fun a b => a.ageGroup ≤ b.ageGroup),
       (mapValues (mergeFold demoKey demoEmit demoMerge (femalePairs cs) [])).insertionSort
          (fun a b => a.ageGroup ≤ b.ageGroup)) := by
  simp only [processCampaignPerformance, malePairs, femalePairs, demoPairs]
  rw [foldl_nested_pairs, demoPairFold_eq]

/-- Key of the age-group map. -/
def ageGroupKey (ce : Campaign × DemographicBreakdown) : String := ce.2.age_group

/-- Merge branch of the age-group map as a binary function. -/
def ageGroupMerge (v : ℚ × ℚ) (ce : Campaign × DemographicBreakdown) : ℚ × ℚ :=
  (v.1 + ce.1.spend * (ce.2.percentage_of_audience / 100),
   v.2 + ce.1.revenue * (ce.2.percentage_of_audience / 100))

/-- Fresh age-group accumulator (the get-or-default-zeros branch). -/
def ageGroupEmit (ce : Campaign × DemographicBreakdown) : ℚ × ℚ :=
  ageGroupMerge (0, 0) ce

theorem ageGroupStep_eq (m : List (String × (ℚ × ℚ)))
    (ce : Campaign × DemographicBreakdown) :
    ageGroupStep m ce = mergeStep ageGroupKey ageGroupEmit ageGroupMerge m ce := by
  unfold ageGroupStep mergeStep ageGroupKey ageGroupEmit ageGroupMerge
  cases h : mapGet m ce.2.age_group <;> simp [h]

theorem processAgeGroupData_eq (cs : List Campaign) :
    processAgeGroupData (some cs) =
      (((mergeFold ageGroupKey ageGroupEmit ageGroupMerge (demoPairs cs) []).map
          (fun p => AgeGroupData.mk p.1 p.2.1 0)).insertionSort
            (fun a b => a.ageGroup ≤ b.ageGroup),
       ((mergeFold ageGroupKey ageGroupEmit ageGroupMerge (demoPairs cs) []).map
          (fun p => AgeGroupData.mk p.1 0 p.2.2)).insertionSort
            (fun a b => a.ageGroup ≤ b.ageGroup)) := by
  simp only [processAgeGroupData, demoPairs, mergeFold]
  rw [foldl_nested_pairs, foldl_ext _ _ ageGroupStep_eq]

/-- Key of the device chart map. -/
def deviceChartKey (ce : Campaign × DeviceBreakdown) : String := ce.2.device_type

/-- Merge branch of the device chart map as a binary function. -/
def deviceChartMerge (v : ℚ × ℚ) (ce : Campaign × DeviceBreakdown) : ℚ × ℚ :=
  (v.1 + ce.1.spend * (ce.2.percentage_of_audience / 100),
   v.2 + ce.1.revenue * (ce.2.percentage_of_audience / 100))

/-- Fresh device chart accumulator (the get-or-default-zeros branch). -/
def deviceChartEmit (ce : Campaign × DeviceBreakdown) : ℚ × ℚ :=
  deviceChartMerge (0, 0) ce

theorem deviceChartStep_eq (m : List (String × (ℚ × ℚ)))
    (ce : Campaign × DeviceBreakdown) :
    deviceChartStep m ce = mergeStep deviceChartKey deviceChartEmit deviceChartMerge m ce := by
  unfold deviceChartStep mergeStep deviceChartKey deviceChartEmit deviceChartMerge
  cases h : mapGet m ce.2.device_type <;> simp [h]

theorem processDeviceChartData_eq (cs : List Campaign) :
    processDeviceChartData (some cs) =
      (((mergeFold deviceChartKey deviceChartEmit deviceChartMerge (devicePairs cs) []).map
          (fun p => (p.1, p.2.1))),
       ((mergeFold deviceChartKey deviceChartEmit deviceChartMerge (devicePairs cs) []).map
          (fun p => (p.1, p.2.2)))) := by
  simp only [processDeviceChartData, devicePairs, mergeFold]
  rw [foldl_nested_pairs, foldl_ext _ _ deviceChartStep_eq]

/-! ## Bucket characterization -/

section BucketLemmas

variable {K V E : Type} [DecidableEq K]
variable (key : E → K) (emit : E → V) (merge : V → E → V)

theorem pair_mergeFold_sum (f : V → ℚ) (g : E → ℚ)
    (hmerge : ∀ v e, f (merge v e) = f v + g e)
    (hemit : ∀ e, f (emit e) = g e)
    (es : List E) (k : K) (v : V)
    (hkv : (k, v) ∈ mergeFold key emit merge es []) :
    f v = ((es.filter (fun e => key e = k)).map g).sum := by
  have hnd : (mapKeys (mergeFold key emit merge es ([] : List (K × V)))).Nodup :=
    nodup_mapKeys_mergeFold key emit merge es [] (by simp [mapKeys])
  have hget := mapGet_eq_some_of_mem_nodup hkv hnd
  have hsum := mergeFold_get_sum key emit merge f g hmerge hemit es [] k v hget
  simpa [mapGet] using hsum

theorem values_mergeFold_sum (keyOf : V → K) (f : V → ℚ) (g : E → ℚ)
    (hkey_emit : ∀ e, keyOf (emit e) = key e)
    (hkey_merge : ∀ v e, keyOf (merge v e) = keyOf v)
    (hmerge : ∀ v e, f (merge v e) = f v + g e)
    (hemit : ∀ e, f (emit e) = g e)
    (es : List E) (b : V)
    (hb : b ∈ mapValues (mergeFold key emit merge es [])) :
    f b = ((es.filter (fun e => key e = keyOf b)).map g).sum := by
  obtain ⟨k, hkb⟩ := exists_key_of_mem_mapValues hb
  have hk : keyOf b = k :=
    mergeFold_keyOf key emit merge keyOf hkey_emit hkey_merge es []
      (by simp) (k, b) hkb
  rw [hk]
  exact pair_mergeFold_sum key emit merge f g hmerge hemit es k b hkb

theorem mapValues_map_keyOf (keyOf : V → K) (M : List (K × V))
    (h : ∀ p ∈ M, keyOf p.2 = p.1) : (mapValues M).map keyOf = mapKeys M := by
  unfold mapValues mapKeys
  rw [List.map_map]
  exact List.map_congr_left (fun p hp => h p hp)

end BucketLemmas

/-! ## Order instances for the sort comparators -/

instance : IsTotal WeeklyPerformance (fun a b => a.week_start ≤ b.week_start) :=
  ⟨fun a b => Nat.le_total a.week_start b.week_start⟩

instance : IsTrans WeeklyPerformance (fun a b => a.week_start ≤ b.week_start) :=
  ⟨fun _ _ _ => Nat.le_trans⟩

instance : IsTotal CampaignPerformance (fun a b => a.ageGroup ≤ b.ageGroup) :=
  ⟨fun a b => le_total a.ageGroup b.ageGroup⟩

instance : IsTrans CampaignPerformance (fun a b => a.ageGroup ≤ b.ageGroup) :=
  ⟨fun _ _ _ => le_trans⟩

instance : IsTotal AgeGroupData (fun a b => a.ageGroup ≤ b.ageGroup) :=
  ⟨fun a b => le_total a.ageGroup b.ageGroup⟩

instance : IsTrans AgeGroupData (fun a b => a.ageGroup ≤ b.ageGroup) :=
  ⟨fun _ _ _ => le_trans⟩

/-! ## Claim theorems -/

/-- C5: each merge-reducer emits its buckets in a dimension-specific
order: the weekly output is sorted ascending by week-start date, the
two demographic performance tables are sorted lexicographically by
age-group label, and the regional buckets and device chart buckets
appear in insertion order of first appearance of their keys. -/
theorem claim_C5 (cs : List Campaign) :
    List.Sorted (fun a b => a.week_start ≤ b.week_start) (getAggregatedWeeklyData (some cs)) ∧
    List.Sorted (fun a b => a.ageGroup ≤ b.ageGroup) (processCampaignPerformance (some cs)).1 ∧
    List.Sorted (fun a b => a.ageGroup ≤ b.ageGroup) (processCampaignPerformance (some cs)).2 ∧
    (getAggregatedRegionalData (some cs)).map regionalKey
      = firstApp ((allRegional cs).map regionalKey) ∧
    ((processDeviceChartData (some cs)).1).map Prod.fst
      = firstApp ((devicePairs cs).map deviceChartKey) := by
  refine ⟨?_, ?_, ?_, ?_, ?_⟩
  · rw [getAggregatedWeeklyData_eq]
    exact List.sorted_insertionSort _ _
  · rw [processCampaignPerformance_eq]
    exact List.sorted_insertionSort _ _
  · rw [processCampaignPerformance_eq]
    exact List.sorted_insertionSort _ _
  · rw [getAggregatedRegionalData_eq,
      mapValues_map_keyOf regionalKey _
        (mergeFold_keyOf regionalKey id regionalMerge regionalKey
          (fun _ => rfl) (fun _ _ => rfl) _ [] (by simp)),
      mapKeys_mergeFold]
    rfl
  · rw [processDeviceChartData_eq]
    show ((mergeFold deviceChartKey deviceChartEmit deviceChartMerge
        (devicePairs cs) []).map (fun p => (p.1, p.2.1))).map Prod.fst = _
    rw [List.map_map]
    exact mapKeys_mergeFold deviceChartKey deviceChartEmit deviceChartMerge
      (devicePairs cs) []

/-- C1 (amended): only the demographic and device merge-reducers
compute bucket metrics by apportioning the campaign's scalar totals by
the entry's percentage-of-audience; the weekly and regional
merge-reducers sum the breakdown entries' own metric values directly
(weekly and regional entries carry no percentage basis at all). -/
theorem claim_C1_amended (cs : List Campaign) :
    (∀ b ∈ getAggregatedWeeklyData (some cs),
      b.impressions = (((allWeekly cs).filter (fun w => w.week_start = b.week_start)).map
          (fun w => w.impressions)).sum ∧
      b.clicks = (((allWeekly cs).filter (fun w => w.week_start = b.week_start)).map
          (fun w => w.clicks)).sum ∧
      b.conversions = (((allWeekly cs).filter (fun w => w.week_start = b.week_start)).map
          (fun w => w.conversions)).sum ∧
      b.spend = (((allWeekly cs).filter (fun w => w.week_start = b.week_start)).map
          (fun w => w.spend)).sum ∧
      b.revenue = (((allWeekly cs).filter (fun w => w.week_start = b.week_start)).map
          (fun w => w.revenue)).sum) ∧
    (∀ b ∈ getAggregatedRegionalData (some cs),
      b.impressions = (((allRegional cs).filter (fun r => regionalKey r = regionalKey b)).map
          (fun r => r.impressions)).sum ∧
      b.clicks = (((allRegional cs).filter (fun r => regionalKey r = regionalKey b)).map
          (fun r => r.clicks)).sum ∧
      b.conversions = (((allRegional cs).filter (fun r => regionalKey r = regionalKey b)).map
          (fun r => r.conversions)).sum ∧
      b.spend = (((allRegional cs).filter (fun r => regionalKey r = regionalKey b)).map
          (fun r => r.spend)).sum ∧
      b.revenue = (((allRegional cs).filter (fun r => regionalKey r = regionalKey b)).map
          (fun r => r.revenue)).sum) ∧
    (∀ b ∈ (processCampaignPerformance (some cs)).1,
      b.impressions = (((malePairs cs).filter (fun ce => ce.2.age_group = b.ageGroup)).map
          (fun ce => jsRound (apportion ce.1.impressions ce.2.percentage_of_audience))).sum ∧
      b.clicks = (((malePairs cs).filter (fun ce => ce.2.age_group = b.ageGroup)).map
          (fun ce => jsRound (apportion ce.1.clicks ce.2.percentage_of_audience))).sum ∧
      b.conversions = (((malePairs cs).filter (fun ce => ce.2.age_group = b.ageGroup)).map
          (fun ce => jsRound (apportion ce.1.conversions ce.2.percentage_of_audience))).sum) ∧
    (∀ b ∈ (processCampaignPerformance (some cs)).2,
      b.impressions = (((femalePairs cs).filter (fun ce => ce.2.age_group = b.ageGroup)).map
          (fun ce => jsRound (apportion ce.1.impressions ce.2.percentage_of_audience))).sum ∧
      b.clicks = (((femalePairs cs).filter (fun ce => ce.2.age_group = b.ageGroup)).map
          (fun ce => jsRound (apportion ce.1.clicks ce.2.percentage_of_audience))).sum ∧
      b.conversions = (((femalePairs cs).filter (fun ce => ce.2.age_group = b.ageGroup)).map
          (fun ce => jsRound (apportion ce.1.conversions ce.2.percentage_of_audience))).sum) ∧
    (∀ p ∈ (processDeviceChartData (some cs)).1,
      p.2 = (((devicePairs cs).filter (fun ce => ce.2.device_type = p.1)).map
          (fun ce => apportion ce.1.spend ce.2.percentage_of_audience)).sum) ∧
    (∀ p ∈ (processDeviceChartData (some cs)).2,
      p.2 = (((devicePairs cs).filter (fun ce => ce.2.device_type = p.1)).map
          (fun ce => apportion ce.1.revenue ce.2.percentage_of_audience)).sum) := by
  refine ⟨?_, ?_, ?_, ?_, ?_, ?_⟩
  · intro b hb
    rw [getAggregatedWeeklyData_eq, List.mem_insertionSort] at hb
    exact ⟨values_mergeFold_sum weeklyKey id weeklyMerge (fun b => b.week_start)
        (fun b => b.impressions) (fun w => w.impressions)
        (fun _ => rfl) (fun _ _ => rfl) (fun _ _ => rfl) (fun _ => rfl) (allWeekly cs) b hb,
      values_mergeFold_sum weeklyKey id weeklyMerge (fun b => b.week_start)
        (fun b => b.clicks) (fun w => w.clicks)
        (fun _ => rfl) (fun _ _ => rfl) (fun _ _ => rfl) (fun _ => rfl) (allWeekly cs) b hb,
      values_mergeFold_sum weeklyKey id weeklyMerge (fun b => b.week_start)
        (fun b => b.conversions) (fun w => w.conversions)
        (fun _ => rfl) (fun _ _ => rfl) (fun _ _ => rfl) (fun _ => rfl) (allWeekly cs) b hb,
      values_mergeFold_sum weeklyKey id weeklyMerge (fun b => b.week_start)
        (fun b => b.spend) (fun w => w.spend)
        (fun _ => rfl) (fun _ _ => rfl) (fun _ _ => rfl) (fun _ => rfl) (allWeekly cs) b hb,
      values_mergeFold_sum weeklyKey id weeklyMerge (fun b => b.week_start)
        (fun b => b.revenue) (fun w => w.revenue)
        (fun _ => rfl) (fun _ _ => rfl) (fun _ _ => rfl) (fun _ => rfl) (allWeekly cs) b hb⟩
  · intro b hb
    rw [getAggregatedRegionalData_eq] at hb
    exact ⟨values_mergeFold_sum regionalKey id regionalMerge regionalKey
        (fun b => b.impressions) (fun r => r.impressions)
        (fun _ => rfl) (fun _ _ => rfl) (fun _ _ => rfl) (fun _ => rfl) (allRegional cs) b hb,
      values_mergeFold_sum regionalKey id regionalMerge regionalKey
        (fun b => b.clicks) (fun r => r.clicks)
        (fun _ => rfl) (fun _ _ => rfl) (fun _ _ => rfl) (fun _ => rfl) (allRegional cs) b hb,
      values_mergeFold_sum regionalKey id regionalMerge regionalKey
        (fun b => b.conversions) (fun r => r.conversions)
        (fun _ => rfl) (fun _ _ => rfl) (fun _ _ => rfl) (fun _ => rfl) (allRegional cs) b hb,
      values_mergeFold_sum regionalKey id regionalMerge regionalKey
        (fun b => b.spend) (fun r => r.spend)
        (fun _ => rfl) (fun _ _ => rfl) (fun _ _ => rfl) (fun _ => rfl) (allRegional cs) b hb,
      values_mergeFold_sum regionalKey id regionalMerge regionalKey
        (fun b => b.revenue) (fun r => r.revenue)
        (fun _ => rfl) (fun _ _ => rfl) (fun _ _ => rfl) (fun _ => rfl) (allRegional cs) b hb⟩
  · intro b hb
    rw [processCampaignPerformance_eq] at hb
    dsimp only at hb
    rw [List.mem_insertionSort] at hb
    exact ⟨values_mergeFold_sum demoKey demoEmit demoMerge (fun b => b.ageGroup)
        (fun b => b.impressions)
        (fun ce => jsRound (apportion ce.1.impressions ce.2.percentage_of_audience))
        (fun _ => rfl) (fun _ _ => rfl) (fun _ _ => rfl) (fun _ => rfl) (malePairs cs) b hb,
      values_mergeFold_sum demoKey demoEmit demoMerge (fun b => b.ageGroup)
        (fun b => b.clicks)
        (fun ce => jsRound (apportion ce.1.clicks ce.2.percentage_of_audience))
        (fun _ => rfl) (fun _ _ => rfl) (fun _ _ => rfl) (fun _ => rfl) (malePairs cs) b hb,
      values_mergeFold_sum demoKey demoEmit demoMerge (fun b => b.ageGroup)
        (fun b => b.conversions)
        (fun ce => jsRound (apportion ce.1.conversions ce.2.percentage_of_audience))
        (fun _ => rfl) (fun _ _ => rfl) (fun _ _ => rfl) (fun _ => rfl) (malePairs cs) b hb⟩
  · intro b hb
    rw [processCampaignPerformance_eq] at hb
    dsimp only at hb
    rw [List.mem_insertionSort] at hb
    exact ⟨values_mergeFold_sum demoKey demoEmit demoMerge (fun b => b.ageGroup)
        (fun b => b.impressions)
        (fun ce => jsRound (apportion ce.1.impressions ce.2.percentage_of_audience))
        (fun _ => rfl) (fun _ _ => rfl) (fun _ _ => rfl) (fun _ => rfl) (femalePairs cs) b hb,
      values_mergeFold_sum demoKey demoEmit demoMerge (fun b => b.ageGroup)
        (fun b => b.clicks)
        (fun ce => jsRound (apportion ce.1.clicks ce.2.percentage_of_audience))
        (fun _ => rfl) (fun _ _ => rfl) (fun _ _ => rfl) (fun _ => rfl) (femalePairs cs) b hb,
      values_mergeFold_sum demoKey demoEmit demoMerge (fun b => b.ageGroup)
        (fun b => b.conversions)
        (fun ce => jsRound (apportion ce.1.conversions ce.2.percentage_of_audience))
        (fun _ => rfl) (fun _ _ => rfl) (fun _ _ => rfl) (fun _ => rfl) (femalePairs cs) b hb⟩
  · intro p hp
    rw [processDeviceChartData_eq] at hp
    dsimp only at hp
    obtain ⟨q, hq, rfl⟩ := List.mem_map.1 hp
    exact pair_mergeFold_sum deviceChartKey deviceChartEmit deviceChartMerge
      (fun v => v.1) (fun ce => apportion ce.1.spend ce.2.percentage_of_audience)
      (fun _ _ => rfl) (fun _ => zero_add _) (devicePairs cs) q.1 q.2 hq
  · intro p hp
    rw [processDeviceChartData_eq] at hp
    dsimp only at hp
    obtain ⟨q, hq, rfl⟩ := List.mem_map.1 hp
    exact pair_mergeFold_sum deviceChartKey deviceChartEmit deviceChartMerge
      (fun v => v.2) (fun ce => apportion ce.1.revenue ce.2.percentage_of_audience)
      (fun _ _ => rfl) (fun _ => zero_add _) (devicePairs cs) q.1 q.2 hq

/-! ## Concrete inputs for counterexamples, witnesses and evaluations -/

/-- Campaign with totals 1000/100/10/50/200 and a single weekly entry
whose own metric values are 3/2/1/4/5. -/
def weeklyCampA : Campaign :=
  { name := "A", impressions := 1000, clicks := 100, conversions := 10,
    spend := 50, revenue := 200,
    weekly_performance := [⟨0, 3, 2, 1, 4, 5⟩],
    regional_performance := [], demographic_breakdown := [], device_breakdown := [] }

/-- Same campaign as `weeklyCampA` except the weekly entry's own
`impressions` value is 4 instead of 3; every scalar total is equal. -/
def weeklyCampB : Campaign :=
  { weeklyCampA with weekly_performance := [⟨0, 4, 2, 1, 4, 5⟩] }

/-- The end-to-end demographic scenario campaign: totals
1000/100/10 and one `("18-24", "Male", 50%)` entry. -/
def scenarioCampaign : Campaign :=
  { name := "Scenario", impressions := 1000, clicks := 100, conversions := 10,
    spend := 0, revenue := 0, weekly_performance := [], regional_performance := [],
    demographic_breakdown := [⟨"18-24", "Male", 50⟩], device_breakdown := [] }

/-- Campaign whose impressions total is 0 while its clicks total is
100, with one male demographic entry at 50%. -/
def zeroImprCampaign : Campaign :=
  { name := "Z", impressions := 0, clicks := 100, conversions := 0,
    spend := 0, revenue := 0, weekly_performance := [], regional_performance := [],
    demographic_breakdown := [⟨"18-24", "Male", 50⟩], device_breakdown := [] }

/-- Regional entry: Dubai/UAE with 100 impressions, 10 clicks and an
upstream ctr of 10. -/
def regionEntryA : RegionalPerformance :=
  { region := "Dubai", country := "UAE", impressions := 100, clicks := 10,
    conversions := 0, spend := 0, revenue := 0, ctr := 10, conversion_rate := 0,
    cpc := 0, cpa := 0, roas := 0 }

/-- Regional entry for the same key with 200 impressions, 10 clicks and
an upstream ctr of 5. -/
def regionEntryB : RegionalPerformance :=
  { regionEntryA with impressions := 200, ctr := 5 }

/-- Campaign carrying only `regionEntryA`. -/
def regionCampA : Campaign :=
  { name := "RA", impressions := 0, clicks := 0, conversions := 0, spend := 0,
    revenue := 0, weekly_performance := [], regional_performance := [regionEntryA],
    demographic_breakdown := [], device_breakdown := [] }

/-- Campaign carrying only `regionEntryB`. -/
def regionCampB : Campaign :=
  { regionCampA with name := "RB", regional_performance := [regionEntryB] }

/-- Raw campaign whose `demographic_breakdown` field is absent. -/
def rawNoDemo : RawCampaign :=
  { name := "R", impressions := 0, clicks := 0, conversions := 0, spend := 0,
    revenue := 0, weekly_performance := some [], regional_performance := some [],
    demographic_breakdown := none, device_breakdown := some [] }

/-- C1 (counterexample): two campaigns with identical scalar totals but
different weekly-entry metric values produce different weekly buckets —
the bucket is the direct sum of the entries' own values (3 resp. 4),
not an apportionment of the campaign's totals by a percentage. -/
theorem claim_C1_counterexample :
    (getAggregatedWeeklyData (some [weeklyCampA])).map (fun b => b.impressions) = [3] ∧
    (getAggregatedWeeklyData (some [weeklyCampB])).map (fun b => b.impressions) = [4] ∧
    weeklyCampA.impressions = weeklyCampB.impressions ∧
    weeklyCampA.clicks = weeklyCampB.clicks ∧
    weeklyCampA.conversions = weeklyCampB.conversions ∧
    weeklyCampA.spend = weeklyCampB.spend ∧
    weeklyCampA.revenue = weeklyCampB.revenue ∧
    getAggregatedWeeklyData (some [weeklyCampA]) ≠ getAggregatedWeeklyData (some [weeklyCampB]) := by
  refine ⟨?_, ?_, rfl, rfl, rfl, rfl, rfl, ?_⟩ <;>
    norm_num [getAggregatedWeeklyData, weeklyCampA, weeklyCampB, mergeStep, mapGet,
      mapSet, mapValues, weeklyMerge, List.insertionSort, List.orderedInsert]

/-- C4: the §8 end-to-end scenario: two campaigns with totals
1000/100/10 and one 50% male 18-24 entry each; the merged male bucket
is exactly 1000 impressions, 100 clicks, 10 conversions, ctr 10.00 and
conversion rate 10.00. -/
theorem claim_C4 :
    (processCampaignPerformance (some [scenarioCampaign, scenarioCampaign])).1 =
      [{ ageGroup := "18-24", gender := "Male", impressions := 1000, clicks := 100,
         conversions := 10, ctr := .num 10, conversionRate := .num 10 }] ∧
    (processCampaignPerformance (some [scenarioCampaign, scenarioCampaign])).2 = [] := by
  constructor <;>
    norm_num [processCampaignPerformance, scenarioCampaign, demoPairStep, mergeStep,
      mapGet, mapSet, mapValues, demoEmit, demoMerge, demoPerformance, demoKey,
      jsRound, jsDiv, jsMulC, jsToFixed2, List.insertionSort, List.orderedInsert]

/-- C2 (code evaluation at the failing input): the demographic view's
ctr guard checks `clicks > 0` rather than `impressions > 0`, so a
campaign with 0 impressions and 100 clicks produces a merged bucket
with `impressions = 0` whose ctr is `Infinity`, not 0. -/
theorem claim_C2_code_eval :
    (processCampaignPerformance (some [zeroImprCampaign])).1 =
      [{ ageGroup := "18-24", gender := "Male", impressions := 0, clicks := 50,
         conversions := 0, ctr := .posInf, conversionRate := .num 0 }] := by
  norm_num [processCampaignPerformance, zeroImprCampaign, demoPairStep, mergeStep,
    mapGet, mapSet, mapValues, demoEmit, demoMerge, demoPerformance, demoKey,
    jsRound, jsDiv, jsMulC, jsToFixed2, List.insertionSort, List.orderedInsert]

/-- C3 (code evaluation at the failing input): merging Dubai entries
(100 impressions, 10 clicks, ctr 10) and (200 impressions, 10 clicks,
ctr 5) yields a bucket with 300 impressions and 20 clicks whose ctr is
the copied value 5 of the last entry, not the recomputed
`20 / 300 * 100 = 6.67`. -/
theorem claim_C3_code_eval :
    (getAggregatedRegionalData (some [regionCampA, regionCampB])).map
        (fun b => (b.impressions, b.clicks, b.ctr)) = [(300, 20, 5)] ∧
    ¬ ((5 : ℚ) = 20 / 300 * 100) := by
  constructor
  · norm_num [getAggregatedRegionalData, regionCampA, regionCampB, regionEntryA,
      regionEntryB, regionalKey, mergeStep, mapGet, mapSet, mapValues, regionalMerge]
  · norm_num

/-- C6 (counterexample): a campaign whose `demographic_breakdown` is
absent makes `processDemographicMetrics` fault on the undefined
dereference instead of treating the collection as empty. -/
theorem claim_C6_counterexample :
    processDemographicMetricsRaw (some [rawNoDemo]) =
      .error "TypeError: campaign.demographic_breakdown is undefined" := by
  norm_num [processDemographicMetricsRaw, rawNoDemo, List.foldlM]

/-- The weekly bucket that `[weeklyCampA]` produces. -/
def weeklyBucketA : WeeklyPerformance := ⟨0, 3, 2, 1, 4, 5⟩

/-- The male bucket that `[scenarioCampaign]` alone produces. -/
def scenarioHalfBucket : CampaignPerformance :=
  { ageGroup := "18-24", gender := "Male", impressions := 500, clicks := 50,
    conversions := 5, ctr := .num 10, conversionRate := .num 10 }

/-- C1 (witness): the amended claim applied to the one-campaign
documents `[weeklyCampA]` and `[scenarioCampaign]`, with the membership
hypotheses discharged on the concrete buckets. -/
theorem claim_C1_witness :
    (weeklyBucketA.impressions
      = (((allWeekly [weeklyCampA]).filter
          (fun w => w.week_start = weeklyBucketA.week_start)).map
          (fun w => w.impressions)).sum) ∧
    (scenarioHalfBucket.clicks
      = (((malePairs [scenarioCampaign]).filter
          (fun ce => ce.2.age_group = scenarioHalfBucket.ageGroup)).map
          (fun ce => jsRound (apportion ce.1.clicks ce.2.percentage_of_audience))).sum) := by
  constructor
  · have hmem : weeklyBucketA ∈ getAggregatedWeeklyData (some [weeklyCampA]) := by
      norm_num [getAggregatedWeeklyData, weeklyCampA, weeklyBucketA, mergeStep,
        mapGet, mapSet, mapValues, weeklyMerge, List.insertionSort, List.orderedInsert]
    exact ((claim_C1_amended [weeklyCampA]).1 _ hmem).1
  · have hmem : scenarioHalfBucket ∈
        (processCampaignPerformance (some [scenarioCampaign])).1 := by
      norm_num [processCampaignPerformance, scenarioCampaign, scenarioHalfBucket,
        demoPairStep, mergeStep, mapGet, mapSet, mapValues, demoEmit, demoMerge,
        demoPerformance, demoKey, jsRound, jsDiv, jsMulC, jsToFixed2,
        List.insertionSort, List.orderedInsert]
    exact ((claim_C1_amended [scenarioCampaign]).2.2.1 _ hmem).2.1

/-- The inner demographic-metrics fold over a raw campaign list errors
as soon as any campaign's `demographic_breakdown` is absent. -/
theorem demographicFoldRaw_error (cs : List RawCampaign) :
    ∀ acc : DemographicMetrics, (∃ c ∈ cs, c.demographic_breakdown = none) →
      cs.foldlM (fun metrics campaign =>
        match campaign.demographic_breakdown with
        | none => Except.error "TypeError: campaign.demographic_breakdown is undefined"
        | some breakdown => Except.ok (breakdown.foldl
            (demographicAccum campaign.spend campaign.revenue campaign.clicks)
            metrics)) acc =
      Except.error "TypeError: campaign.demographic_breakdown is undefined" := by
  induction cs with
  | nil => intro acc h; simp at h
  | cons c cs ih =>
    intro acc h
    cases hc : c.demographic_breakdown with
    | none =>
      simp only [List.foldlM, hc]
      rfl
    | some bd =>
      have hex : ∃ c ∈ cs, c.demographic_breakdown = none := by
        rcases h with ⟨c', hc', hnone⟩
        rcases List.mem_cons.1 hc' with rfl | hmem
        · rw [hc] at hnone; cases hnone
        · exact ⟨c', hmem, hnone⟩
      simp only [List.foldlM, hc]
      rw [show (Except.ok (bd.foldl (demographicAccum c.spend c.revenue c.clicks) acc) >>=
          fun s => cs.foldlM _ s : Except String DemographicMetrics) =
          cs.foldlM _ (bd.foldl (demographicAccum c.spend c.revenue c.clicks) acc) from rfl]
      exact ih _ hex

/-- C6 (amended): an absent breakdown collection is not treated as
empty — the demographic aggregation faults (a TypeError) as soon as any
campaign's `demographic_breakdown` is absent; only the device dimension
tolerates absence, through fetch-time synthesis of a device breakdown;
a campaign with an empty (present) breakdown list contributes nothing. -/
theorem claim_C6_amended :
    (∀ cs : List RawCampaign, (∃ c ∈ cs, c.demographic_breakdown = none) →
      processDemographicMetricsRaw (some cs) =
        .error "TypeError: campaign.demographic_breakdown is undefined") ∧
    (∀ (c : Campaign) (pre post : List Campaign), c.demographic_breakdown = [] →
      processDemographicMetrics (some (pre ++ c :: post)) =
        processDemographicMetrics (some (pre ++ post))) ∧
    (∀ (c : Campaign) (pre post : List Campaign), c.device_breakdown = [] →
      processDeviceMetrics (some (pre ++ c :: post)) =
        processDeviceMetrics (some (pre ++ post))) ∧
    (∀ m d t : ℚ, (fetchDeviceBreakdown none m d t).length = 3) := by
  refine ⟨?_, ?_, ?_, ?_⟩
  · intro cs h
    simp only [processDemographicMetricsRaw]
    exact demographicFoldRaw_error cs zeroDemographicMetrics h
  · intro c pre post h
    simp only [processDemographicMetrics, List.foldl_append, List.foldl_cons, h,
      List.foldl_nil]
  · intro c pre post h
    simp only [processDeviceMetrics, List.foldl_append, List.foldl_cons, h,
      List.foldl_nil]
  · intro m d t
    simp [fetchDeviceBreakdown, synthDeviceBreakdown]

/-- C6 (witness): the amended claim applied to a concrete raw document
with an absent demographic breakdown and to a concrete campaign with an
empty demographic breakdown. -/
theorem claim_C6_witness :
    processDemographicMetricsRaw (some [rawNoDemo]) =
      .error "TypeError: campaign.demographic_breakdown is undefined" ∧
    processDemographicMetrics (some
        [{ scenarioCampaign with demographic_breakdown := [] }, scenarioCampaign]) =
      processDemographicMetrics (some [scenarioCampaign]) := by
  constructor
  · exact claim_C6_amended.1 [rawNoDemo] ⟨rawNoDemo, List.mem_singleton.2 rfl, rfl⟩
  · exact claim_C6_amended.2.1 { scenarioCampaign with demographic_breakdown := [] }
      [] [scenarioCampaign] rfl

/-- The bubble point built from a regional record and its coordinates. -/
def mkBubblePoint (valueType : ValueType) (item : RegionalPerformance)
    (c : ℚ × ℚ) : BubbleMapDataPoint :=
  { region := item.region
    country := item.country
    latitude := c.1
    longitude := c.2
    value := selectValue valueType item
    addRevenue := item.revenue
    addSpend := item.spend
    addImpressions := item.impressions
    addClicks := item.clicks
    addConversions := item.conversions }

theorem transform_eq_filterMap (rd : List RegionalPerformance) (vt : ValueType) :
    transformRegionalDataForBubbleMap rd vt =
      rd.filterMap (fun item =>
        (cityCoordinates item.region).map (mkBubblePoint vt item)) := by
  induction rd with
  | nil => rfl
  | cons item rest ih =>
    simp only [transformRegionalDataForBubbleMap] at ih ⊢
    cases h : cityCoordinates item.region with
    | none =>
      simp only [List.map_cons, h, List.filterMap_cons, Option.map_none']
      exact ih
    | some c =>
      simp only [List.map_cons, h, List.filterMap_cons, Option.map_some']
      rw [List.reduceOption_cons_of_some]
      rw [ih]
      rfl

theorem warnings_eq_filterMap (rd : List RegionalPerformance) :
    transformRegionalWarnings rd =
      rd.filterMap (fun item =>
        match cityCoordinates item.region with
        | none => some ("Coordinates not found for region: " ++ item.region)
        | some _ => none) := by
  induction rd with
  | nil => rfl
  | cons item rest ih =>
    simp only [transformRegionalWarnings] at ih ⊢
    cases h : cityCoordinates item.region with
    | none =>
      simp only [List.map_cons, h, List.filterMap_cons]
      rw [List.reduceOption_cons_of_some, ih]
    | some c =>
      simp only [List.map_cons, h, List.filterMap_cons]
      exact ih

theorem transform_length (rd : List RegionalPerformance) (vt : ValueType) :
    (transformRegionalDataForBubbleMap rd vt).length +
      (transformRegionalWarnings rd).length = rd.length := by
  rw [transform_eq_filterMap, warnings_eq_filterMap]
  induction rd with
  | nil => rfl
  | cons item rest ih =>
    cases h : cityCoordinates item.region with
    | none =>
      simp only [List.filterMap_cons, h, Option.map_none', List.length_cons]
      omega
    | some c =>
      simp only [List.filterMap_cons, h, Option.map_some', List.length_cons]
      omega

/-- C7: a regional record whose region is missing from the static
city-coordinates table is excluded from the bubble-map output (leaving
exactly one diagnostic per such record, and returning normally), while
every emitted point carries the table's latitude/longitude and the
selected metric as its value. -/
theorem claim_C7 (rd : List RegionalPerformance) (vt : ValueType) :
    transformRegionalDataForBubbleMap rd vt =
      rd.filterMap (fun item =>
        (cityCoordinates item.region).map (mkBubblePoint vt item)) ∧
    (transformRegionalDataForBubbleMap rd vt).length +
      (transformRegionalWarnings rd).length = rd.length ∧
    (∀ p ∈ transformRegionalDataForBubbleMap rd vt, ∃ item ∈ rd, ∃ c,
      cityCoordinates item.region = some c ∧ p.region = item.region ∧
      p.latitude = c.1 ∧ p.longitude = c.2 ∧ p.value = selectValue vt item) ∧
    (∀ item ∈ rd, cityCoordinates item.region = none →
      ("Coordinates not found for region: " ++ item.region) ∈
        transformRegionalWarnings rd) := by
  refine ⟨transform_eq_filterMap rd vt, transform_length rd vt, ?_, ?_⟩
  · intro p hp
    rw [transform_eq_filterMap] at hp
    obtain ⟨item, hitem, hsome⟩ := List.mem_filterMap.1 hp
    obtain ⟨c, hc, hmk⟩ := Option.map_eq_some'.1 hsome
    exact ⟨item, hitem, c, hc, by rw [← hmk]; exact rfl, by rw [← hmk]; exact rfl,
      by rw [← hmk]; exact rfl, by rw [← hmk]; exact rfl⟩
  · intro item hitem hnone
    rw [warnings_eq_filterMap]
    exact List.mem_filterMap.2 ⟨item, hitem, by rw [hnone]⟩

/-- C7 (witness): the claim applied to a two-record input whose first
region (`"Atlantis"`) is unknown and whose second (`"Dubai"`) is known:
the unknown record is dropped, one diagnostic is emitted, and the Dubai
point carries the table coordinates and the revenue metric. -/
theorem claim_C7_witness :
    (transformRegionalDataForBubbleMap
        [{ regionEntryA with region := "Atlantis" }, regionEntryA] .revenue).length +
      (transformRegionalWarnings
        [{ regionEntryA with region := "Atlantis" }, regionEntryA]).length = 2 ∧
    ("Coordinates not found for region: " ++ "Atlantis") ∈
      transformRegionalWarnings [{ regionEntryA with region := "Atlantis" }, regionEntryA] := by
  constructor
  · exact (claim_C7 [{ regionEntryA with region := "Atlantis" }, regionEntryA] .revenue).2.1
  · exact (claim_C7 [{ regionEntryA with region := "Atlantis" }, regionEntryA] .revenue).2.2.2
      { regionEntryA with region := "Atlantis" } (List.mem_cons_self _ _)
      (by simp [cityCoordinates])

theorem foldl_min_all (v : ℚ) : ∀ l : List ℚ, (∀ y ∈ l, y = v) → l.foldl min v = v := by
  intro l
  induction l with
  | nil => intro _; rfl
  | cons y l ih =>
    intro h
    rw [List.foldl_cons, h y (List.mem_cons_self _ _), min_self]
    exact ih (fun z hz => h z (List.mem_cons_of_mem _ hz))

theorem foldl_max_all (v : ℚ) : ∀ l : List ℚ, (∀ y ∈ l, y = v) → l.foldl max v = v := by
  intro l
  induction l with
  | nil => intro _; rfl
  | cons y l ih =>
    intro h
    rw [List.foldl_cons, h y (List.mem_cons_self _ _), max_self]
    exact ih (fun z hz => h z (List.mem_cons_of_mem _ hz))

/-- C8: each bubble's radius is the linear interpolation between
`minRadius` and `maxRadius` over the dataset's observed minimum and
maximum value; when the observed maximum equals the observed minimum
(in particular whenever all bubble values are equal), every bubble gets
the midpoint radius `(minRadius + maxRadius) / 2` and the fixed default
color `"#3B82F6"`. -/
theorem claim_C8 (minR maxR : ℚ) (data : List BubbleMapDataPoint)
    (item : BubbleMapDataPoint) (hmem : item ∈ data) :
    (listMax (data.map (fun p => p.value)) ≠ listMin (data.map (fun p => p.value)) →
      bubbleRadius minR maxR data item = minR + (maxR - minR) *
        ((item.value - listMin (data.map (fun p => p.value))) /
          (listMax (data.map (fun p => p.value)) - listMin (data.map (fun p => p.value))))) ∧
    (listMax (data.map (fun p => p.value)) = listMin (data.map (fun p => p.value)) →
      bubbleRadius minR maxR data item = (minR + maxR) / 2 ∧
      bubbleColor data item = "#3B82F6") ∧
    ((∀ p ∈ data, ∀ q ∈ data, p.value = q.value) →
      bubbleRadius minR maxR data item = (minR + maxR) / 2 ∧
      bubbleColor data item = "#3B82F6") := by
  refine ⟨?_, ?_, ?_⟩
  · intro h
    simp only [bubbleRadius, getRadius, if_neg h]
  · intro h
    exact ⟨by simp only [bubbleRadius, getRadius, if_pos h],
      by simp only [bubbleColor, getColor, if_pos h]⟩
  · intro hall
    cases data with
    | nil => cases hmem
    | cons d rest =>
      have hv : ∀ y ∈ rest.map (fun p => p.value), y = d.value := by
        intro y hy
        obtain ⟨q, hq, rfl⟩ := List.mem_map.1 hy
        exact hall q (List.mem_cons_of_mem _ hq) d (List.mem_cons_self _ _)
      have heq : listMax ((d :: rest).map (fun p => p.value)) =
          listMin ((d :: rest).map (fun p => p.value)) := by
        simp only [List.map_cons, listMax, listMin]
        rw [foldl_min_all d.value _ hv, foldl_max_all d.value _ hv]
      exact ⟨by simp only [bubbleRadius, getRadius, if_pos heq],
        by simp only [bubbleColor, getColor, if_pos heq]⟩

/-- Bubble point with value 7. -/
def bubblePtA : BubbleMapDataPoint := ⟨"Dubai", "UAE", 0, 0, 7, 0, 0, 0, 0, 0⟩

/-- Second bubble point with the same value 7. -/
def bubblePtB : BubbleMapDataPoint := { bubblePtA with region := "Doha" }

/-- C8 (witness): the claim applied to a concrete two-point dataset
whose values are both 7 — the degenerate branch gives the midpoint
radius 29 and the default color. -/
theorem claim_C8_witness :
    bubbleRadius 8 50 [bubblePtA, bubblePtB] bubblePtA = (8 + 50) / 2 ∧
    bubbleColor [bubblePtA, bubblePtB] bubblePtA = "#3B82F6" :=
  (claim_C8 8 50 [bubblePtA, bubblePtB] bubblePtA (List.mem_cons_self _ _)).2.2
    (by
      intro p hp q hq
      rcases List.mem_cons.1 hp with rfl | hp'
      · rcases List.mem_cons.1 hq with rfl | hq'
        · rfl
        · rcases List.mem_singleton.1 hq' with rfl
          rfl
      · rcases List.mem_singleton.1 hp' with rfl
        rcases List.mem_cons.1 hq with rfl | hq'
        · rfl
        · rcases List.mem_singleton.1 hq' with rfl
          rfl)

/-- C9: when `device_breakdown` is absent, the fetch fixup synthesizes
exactly the three entries Mobile, Desktop, Tablet from the three random
draws (within their documented ranges) and renormalizes them by their
common sum, after which the percentages sum to exactly 100. -/
theorem claim_C9 (m d t : ℚ) (hm1 : 25 ≤ m) (hm2 : m ≤ 75) (hd1 : 10 ≤ d)
    (hd2 : d ≤ 40) (ht1 : 2 ≤ t) (ht2 : t ≤ 12) :
    (fetchDeviceBreakdown none m d t).map (fun db => db.device_type) =
      ["Mobile", "Desktop", "Tablet"] ∧
    ((fetchDeviceBreakdown none m d t).map
        (fun db => db.percentage_of_audience)).sum = 100 := by
  constructor
  · rfl
  · simp only [fetchDeviceBreakdown, synthDeviceBreakdown, List.map_cons,
      List.map_nil, List.sum_cons, List.sum_nil]
    have h0 : (0 : ℚ) < m + (d + (t + 0)) := by linarith
    have htot : m + (d + (t + 0)) ≠ 0 := ne_of_gt h0
    field_simp
    ring

/-- C9 (witness): the claim applied to the concrete draws 50, 25, 5. -/
theorem claim_C9_witness :
    (fetchDeviceBreakdown none 50 25 5).map (fun db => db.device_type) =
      ["Mobile", "Desktop", "Tablet"] ∧
    ((fetchDeviceBreakdown none 50 25 5).map
        (fun db => db.percentage_of_audience)).sum = 100 :=
  claim_C9 50 25 5 (by norm_num) (by norm_num) (by norm_num) (by norm_num)
    (by norm_num) (by norm_num)

/-- A campaign with every demographic entry whose gender is neither
exactly `"Male"` nor exactly `"Female"` removed. -/
def filterBinaryCampaign (c : Campaign) : Campaign :=
  { c with
    demographic_breakdown := c.demographic_breakdown.filter
      (fun demo => demo.gender = "Male" ∨ demo.gender = "Female") }

/-- The campaign list with every demographic entry whose gender is
neither exactly `"Male"` nor exactly `"Female"` removed. -/
def campaignsFilterBinary (cs : List Campaign) : List Campaign :=
  cs.map filterBinaryCampaign

/-- C10: demographic entries whose gender is neither exactly `"Male"`
nor exactly `"Female"` contribute nothing to the gender metric totals
and to the male/female performance tables (removing them changes
neither output, and no diagnostic channel exists in these functions),
while the age-group spend/revenue buckets sum over every entry
regardless of gender. -/
theorem claim_C10 (cs : List Campaign) :
    processDemographicMetrics (some (campaignsFilterBinary cs)) =
      processDemographicMetrics (some cs) ∧
    processCampaignPerformance (some (campaignsFilterBinary cs)) =
      processCampaignPerformance (some cs) ∧
    (∀ row ∈ (processAgeGroupData (some cs)).1,
      row.spend = (((demoPairs cs).filter (fun ce => ce.2.age_group = row.ageGroup)).map
        (fun ce => apportion ce.1.spend ce.2.percentage_of_audience)).sum) ∧
    (∀ row ∈ (processAgeGroupData (some cs)).2,
      row.revenue = (((demoPairs cs).filter (fun ce => ce.2.age_group = row.ageGroup)).map
        (fun ce => apportion ce.1.revenue ce.2.percentage_of_audience)).sum) := by
  refine ⟨?_, ?_, ?_, ?_⟩
  · simp only [processDemographicMetrics, campaignsFilterBinary]
    rw [List.foldl_map]
    refine foldl_ext _ _ (fun ms c => ?_) cs zeroDemographicMetrics
    exact foldl_filter_eq _ _
      (fun s demo hp => by
        simp only [decide_eq_false_iff_not, not_or] at hp
        simp [demographicAccum, hp.1, hp.2]) c.demographic_breakdown ms
  · simp only [processCampaignPerformance, campaignsFilterBinary]
    rw [List.foldl_map]
    refine congrArg
      (fun (mp : List (String × CampaignPerformance) ×
          List (String × CampaignPerformance)) =>
        ((mapValues mp.1).insertionSort (fun a b => a.ageGroup ≤ b.ageGroup),
         (mapValues mp.2).insertionSort (fun a b => a.ageGroup ≤ b.ageGroup))) ?_
    refine foldl_ext _ _ (fun maps c => ?_) cs ([], [])
    show ((c.demographic_breakdown.filter
        (fun demo => demo.gender = "Male" ∨ demo.gender = "Female")).foldl
        (fun maps demo => demoPairStep maps (filterBinaryCampaign c, demo)) maps) = _
    rw [foldl_filter_eq _ _
      (fun s demo hp => by
        simp only [decide_eq_false_iff_not, not_or] at hp
        simp [demoPairStep, hp.1, hp.2])]
    rfl
  · intro row hrow
    rw [processAgeGroupData_eq] at hrow
    dsimp only at hrow
    rw [List.mem_insertionSort] at hrow
    obtain ⟨q, hq, rfl⟩ := List.mem_map.1 hrow
    exact pair_mergeFold_sum ageGroupKey ageGroupEmit ageGroupMerge
      (fun v => v.1) (fun ce => apportion ce.1.spend ce.2.percentage_of_audience)
      (fun _ _ => rfl) (fun _ => zero_add _) (demoPairs cs) q.1 q.2 hq
  · intro row hrow
    rw [processAgeGroupData_eq] at hrow
    dsimp only at hrow
    rw [List.mem_insertionSort] at hrow
    obtain ⟨q, hq, rfl⟩ := List.mem_map.1 hrow
    exact pair_mergeFold_sum ageGroupKey ageGroupEmit ageGroupMerge
      (fun v => v.2) (fun ce => apportion ce.1.revenue ce.2.percentage_of_audience)
      (fun _ _ => rfl) (fun _ => zero_add _) (demoPairs cs) q.1 q.2 hq

/-- Campaign with one male, one female and one `"Other"`-gender
demographic entry. -/
def mixedGenderCampaign : Campaign :=
  { name := "Mixed", impressions := 1000, clicks := 100, conversions := 10,
    spend := 60, revenue := 300, weekly_performance := [], regional_performance := [],
    demographic_breakdown :=
      [⟨"18-24", "Male", 25⟩, ⟨"18-24", "Female", 25⟩, ⟨"18-24", "Other", 50⟩],
    device_breakdown := [] }

/-- C10 (witness): the claim applied to the concrete one-campaign
document with a male, a female and an `"Other"` entry: the gender
outputs ignore the `"Other"` entry, while its age-group spend bucket
(the `"18-24"` row) sums over all three entries. -/
theorem claim_C10_witness :
    processDemographicMetrics (some (campaignsFilterBinary [mixedGenderCampaign])) =
      processDemographicMetrics (some [mixedGenderCampaign]) ∧
    ({ ageGroup := "18-24", spend := 60, revenue := 0 } : AgeGroupData).spend =
      (((demoPairs [mixedGenderCampaign]).filter
        (fun ce => ce.2.age_group = ({ ageGroup := "18-24", spend := 60, revenue := 0 } :
          AgeGroupData).ageGroup)).map
        (fun ce => apportion ce.1.spend ce.2.percentage_of_audience)).sum := by
  constructor
  · exact (claim_C10 [mixedGenderCampaign]).1
  · have hrow : ({ ageGroup := "18-24", spend := 60, revenue := 0 } : AgeGroupData) ∈
        (processAgeGroupData (some [mixedGenderCampaign])).1 := by
      norm_num [processAgeGroupData, mixedGenderCampaign, ageGroupStep, mapGet,
        mapSet, List.insertionSort, List.orderedInsert]
    exact (claim_C10 [mixedGenderCampaign]).2.2.1 _ hrow

end Amana
